import Mathlib

/-!
Shallow embedding of the coptergame simulation core (the repository's most
complete variant): geometry primitives, AABB collision, the helicopter craft,
the stateful obstacle generator, and the per-tick game state transition.
JavaScript numbers are modelled as rationals; the two sources of randomness
(the border direction flip `Math.random() > 0.9` and the floating-obstacle
height draw `Math.random()`) are modelled as explicit input streams.
-/

structure Point where
  x : ℚ
  y : ℚ
  deriving DecidableEq

structure Dimensions where
  width : ℚ
  height : ℚ
  deriving DecidableEq

structure Rectangle where
  «from» : Point
  «to» : Point
  deriving DecidableEq

structure Obstacle where
  position : Point
  dimensions : Dimensions
  deriving DecidableEq

def Obstacle.boundingBox (o : Obstacle) : Rectangle :=
  ⟨o.position, ⟨o.position.x + o.dimensions.width, o.position.y + o.dimensions.height⟩⟩

/-- `GameObject.collidesWith`, which compares the two bounding boxes with four
strict inequalities. -/
def collidesWith (a b : Rectangle) : Bool :=
  decide (a.«from».x < b.«to».x) && decide (a.«to».x > b.«from».x) &&
  decide (a.«from».y < b.«to».y) && decide (a.«to».y > b.«from».y)

structure Helicopter where
  position : Point
  trail : List Point
  deriving DecidableEq

/-- `Helicopter.advance`: compute the new y from the controller signal, push the
pre-update position onto the trail, then move right by `offset`. -/
def Helicopter.advance (h : Helicopter) (offset : ℚ) (goUp : Bool) : Helicopter :=
  let newY := if goUp then h.position.y - 1 else h.position.y + 1
  { position := ⟨h.position.x + offset, newY⟩, trail := h.trail ++ [h.position] }

def Helicopter.boundingBox (h : Helicopter) : Rectangle :=
  ⟨h.position, ⟨h.position.x + 20, h.position.y + 20⟩⟩

structure ObstacleGeneratorImpl where
  dimensions : Dimensions
  initialGapSize : ℚ
  minGapSize : ℚ
  «from» : ℚ
  gapSize : ℚ
  heightVarianceDirection : ℚ
  deriving DecidableEq

/-- The `ObstacleGeneratorImpl` constructor. -/
def ObstacleGeneratorImpl.create (dimensions : Dimensions)
    (initialGapSize minGapSize : ℚ) : ObstacleGeneratorImpl :=
  { dimensions := dimensions, initialGapSize := initialGapSize, minGapSize := minGapSize,
    «from» := 0, gapSize := initialGapSize, heightVarianceDirection := 1 }

/-- The direction sign after the random flip at the top of one slab iteration:
`this.heightVarianceDirection *= Math.random() > 0.9 ? -1 : 1`. -/
def slabDir (g : ObstacleGeneratorImpl) (flip : Bool) : ℚ :=
  g.heightVarianceDirection * (if flip then -1 else 1)

/-- The clamped gap size computed by one slab iteration. -/
def slabGap (g : ObstacleGeneratorImpl) (flip : Bool) : ℚ :=
  min g.initialGapSize (max (g.gapSize - slabDir g flip * 10) g.minGapSize)

/-- The generator state after one slab iteration of the `generateBorders`
while-loop body. -/
def slabNext (g : ObstacleGeneratorImpl) (flip : Bool) : ObstacleGeneratorImpl :=
  { g with
      «from» := g.«from» + 100
      gapSize := slabGap g flip
      heightVarianceDirection := slabDir g flip }

/-- The two obstacles pushed by one slab iteration: a top slab at
`(from, 0)` and a bottom slab at `(from, height - obstacleHeight)`, both of
dimensions `100 × obstacleHeight` with `obstacleHeight = (height - gapSize)/2`. -/
def slabObstacles (g : ObstacleGeneratorImpl) (flip : Bool) : List Obstacle :=
  let obstacleHeight := (g.dimensions.height - slabGap g flip) / 2
  [⟨⟨g.«from», 0⟩, ⟨100, obstacleHeight⟩⟩,
   ⟨⟨g.«from», g.dimensions.height - obstacleHeight⟩, ⟨100, obstacleHeight⟩⟩]

/-- The `generateBorders` while-loop, run for `n` iterations.
`flips k = true` models the draw `Math.random() > 0.9` on slab `k`. -/
def generateBordersAux :
    ℕ → ObstacleGeneratorImpl → (ℕ → Bool) → List Obstacle × ObstacleGeneratorImpl
  | 0, g, _ => ([], g)
  | n + 1, g, flips =>
    let r := generateBordersAux n (slabNext g (flips 0)) (fun k => flips (k + 1))
    (slabObstacles g (flips 0) ++ r.1, r.2)

/-- `generateBorders(to)`: the loop `while (from < to)` advances `from` by 100
each iteration, so it runs exactly `⌈(to - from) / 100⌉` times (0 when
`from ≥ to`). -/
def generateBorders (g : ObstacleGeneratorImpl) («to» : ℚ) (flips : ℕ → Bool) :
    List Obstacle × ObstacleGeneratorImpl :=
  generateBordersAux (⌈(«to» - g.«from») / 100⌉.toNat) g flips

def obstaclesPerFrame : ℕ := 2

/-- Body of the `generateObstacles` for-loop: `x` is incremented before each
push; `rs k` models the draw `Math.random()` for obstacle `k`. -/
def genObstaclesAux (d : Dimensions) : ℕ → (ℕ → ℚ) → ℚ → List Obstacle
  | 0, _, _ => []
  | n + 1, rs, x =>
    let x' := x + d.width / (obstaclesPerFrame : ℚ)
    ⟨⟨x', rs 0 * (d.height - 100)⟩, ⟨50, 100⟩⟩ ::
      genObstaclesAux d n (fun k => rs (k + 1)) x'

/-- `generateObstacles(to)`: stateless; starts the cursor at `to - width`. -/
def generateObstacles (d : Dimensions) («to» : ℚ) (rs : ℕ → ℚ) : List Obstacle :=
  genObstaclesAux d obstaclesPerFrame rs («to» - d.width)

/-- JavaScript truncating division used by the `%` operator. -/
def jsTrunc (q : ℚ) : ℤ := if 0 ≤ q then ⌊q⌋ else ⌈q⌉

/-- The JavaScript remainder operator `a % b`. -/
def jsMod (a b : ℚ) : ℚ := a - b * (jsTrunc (a / b) : ℚ)

structure Game where
  dimensions : Dimensions
  offset : ℚ
  obstacleHighWatermark : ℚ
  obstacles : List Obstacle
  helicopter : Helicopter
  obstacleGenerator : ObstacleGeneratorImpl
  deriving DecidableEq

/-- The `Game` constructor: seed the obstacle list with one viewport of
borders, place the craft at the viewport center. -/
def Game.init (dims : Dimensions) (g0 : ObstacleGeneratorImpl) (flips : ℕ → Bool) : Game :=
  let bg := generateBorders g0 dims.width flips
  { dimensions := dims, offset := 0, obstacleHighWatermark := dims.width,
    obstacles := bg.1,
    helicopter := ⟨⟨dims.width / 2, dims.height / 2⟩, []⟩,
    obstacleGenerator := bg.2 }

/-- `Game.removeOutOfFrameObstacles`: drop the prefix of obstacles whose
bounding-box right edge is behind the current offset. -/
def Game.removeOutOfFrameObstacles (s : Game) : Game :=
  { s with obstacles := s.obstacles.dropWhile fun o => decide (o.boundingBox.«to».x < s.offset) }

/-- Per-tick randomness and input: the controller signal sampled this tick and
the random streams consumed by any generation triggered this tick. -/
structure TickInput where
  goUp : Bool
  flips : ℕ → Bool
  rs : ℕ → ℚ

/-- The windowing-trigger half of `Game.tick`: when `offset % width == 0`,
append two viewport-widths of borders and floating obstacles, then prune. -/
def Game.tickGenerate (s : Game) (i : TickInput) : Game :=
  if jsMod s.offset s.dimensions.width = 0 then
    let «to» := s.offset + 2 * s.dimensions.width
    let bg := generateBorders s.obstacleGenerator «to» i.flips
    let fs := generateObstacles s.dimensions «to» i.rs
    Game.removeOutOfFrameObstacles
      { s with obstacles := s.obstacles ++ bg.1 ++ fs, obstacleGenerator := bg.2 }
  else s

/-- `Game.tick`: conditional generation and pruning, then advance the offset
by 2 and the craft by 2. -/
def Game.tick (s : Game) (i : TickInput) : Game :=
  let s1 := s.tickGenerate i
  { s1 with offset := s1.offset + 2, helicopter := s1.helicopter.advance 2 i.goUp }

def Game.hasCollided (s : Game) : Bool :=
  s.obstacles.any fun o => collidesWith s.helicopter.boundingBox o.boundingBox

def Game.score (s : Game) : ℚ := s.offset / 2

/-- Run `n` ticks, tick `k` consuming `inputs k`. -/
def Game.runTicks (s : Game) (inputs : ℕ → TickInput) : ℕ → Game
  | 0 => s
  | n + 1 => (Game.runTicks s inputs n).tick (inputs n)

/-- Characterization device: the list of top/bottom slab pairs emitted by
border generation, starting at cursor `x`, one pair per recorded gap value. -/
def pairsFrom (H : ℚ) : ℚ → List ℚ → List Obstacle
  | _, [] => []
  | x, gp :: rest =>
    let h := (H - gp) / 2
    ⟨⟨x, 0⟩, ⟨100, h⟩⟩ :: ⟨⟨x, H - h⟩, ⟨100, h⟩⟩ :: pairsFrom H (x + 100) rest

/-- Characterization device: the successive clamped gap sizes taken by the
border-generation random walk over `n` slabs, one entry per slab. -/
def gapsList : ℕ → ObstacleGeneratorImpl → (ℕ → Bool) → List ℚ
  | 0, _, _ => []
  | n + 1, g, flips =>
    slabGap g (flips 0) :: gapsList n (slabNext g (flips 0)) (fun k => flips (k + 1))

/-- The border obstacles (slab width 100) within an obstacle collection. -/
def bordersOf (l : List Obstacle) : List Obstacle :=
  l.filter fun o => decide (o.dimensions.width = 100)

/-- The viewport used by the spec scenarios. -/
def dims800 : Dimensions := ⟨800, 600⟩

/-- The scenario generator: viewport 800×600, initial gap 540, min gap 300. -/
def gen800 : ObstacleGeneratorImpl := ObstacleGeneratorImpl.create dims800 540 300

def constFlips : ℕ → Bool := fun _ => false

def constRand : ℕ → ℚ := fun _ => 0

def defaultInput : TickInput := ⟨false, constFlips, constRand⟩

/-- A fresh scenario game. -/
def game800 : Game := Game.init dims800 gen800 constFlips

/-- Scenario state for the edge-touch collision test: craft bounding box
400–420 × 300–320, obstacle 420–470 × 300–400, so `craft.«to».x = obstacle.from.x`. -/
def touchGame : Game :=
  { dimensions := dims800, offset := 0, obstacleHighWatermark := 800,
    obstacles := [⟨⟨420, 300⟩, ⟨50, 100⟩⟩],
    helicopter := ⟨⟨400, 300⟩, []⟩,
    obstacleGenerator := gen800 }

/-- `touchGame` with the craft shifted one unit further right. -/
def touchGameShifted : Game :=
  { touchGame with helicopter := ⟨⟨401, 300⟩, []⟩ }

/-! ## Basic state-transition lemmas -/

lemma tickGenerate_offset (s : Game) (i : TickInput) : (s.tickGenerate i).offset = s.offset := by
  unfold Game.tickGenerate Game.removeOutOfFrameObstacles
  split <;> rfl

lemma tickGenerate_dimensions (s : Game) (i : TickInput) :
    (s.tickGenerate i).dimensions = s.dimensions := by
  unfold Game.tickGenerate Game.removeOutOfFrameObstacles
  split <;> rfl

lemma tickGenerate_helicopter (s : Game) (i : TickInput) :
    (s.tickGenerate i).helicopter = s.helicopter := by
  unfold Game.tickGenerate Game.removeOutOfFrameObstacles
  split <;> rfl

lemma tick_offset (s : Game) (i : TickInput) : (s.tick i).offset = s.offset + 2 := by
  show (s.tickGenerate i).offset + 2 = s.offset + 2
  rw [tickGenerate_offset]

lemma tick_helicopter (s : Game) (i : TickInput) :
    (s.tick i).helicopter = s.helicopter.advance 2 i.goUp := by
  show (s.tickGenerate i).helicopter.advance 2 i.goUp = _
  rw [tickGenerate_helicopter]

lemma tick_dimensions (s : Game) (i : TickInput) : (s.tick i).dimensions = s.dimensions := by
  show (s.tickGenerate i).dimensions = s.dimensions
  exact tickGenerate_dimensions s i

lemma runTicks_offset (dims : Dimensions) (g0 : ObstacleGeneratorImpl) (f0 : ℕ → Bool)
    (inputs : ℕ → TickInput) (n : ℕ) :
    ((Game.init dims g0 f0).runTicks inputs n).offset = (n : ℚ) * 2 := by
  induction n with
  | zero => show (0 : ℚ) = ((0 : ℕ) : ℚ) * 2; norm_num
  | succ k ih =>
    show (((Game.init dims g0 f0).runTicks inputs k).tick (inputs k)).offset = _
    rw [tick_offset, ih]
    push_cast
    ring

/-! ## Claim theorems: scroll offset and score (C4), collision symmetry (C9) -/

/-- C4: on a fresh game, for every input and random sequence, the scroll offset
after `n` calls to `tick()` equals `n · 2` (hence strictly increasing in `n`),
and `score()` returns `offset / 2`, i.e. the elapsed tick count. -/
theorem offset_eq_ticks_mul_step (dims : Dimensions) (g0 : ObstacleGeneratorImpl)
    (f0 : ℕ → Bool) (inputs : ℕ → TickInput) (n : ℕ) :
    ((Game.init dims g0 f0).runTicks inputs n).offset = (n : ℚ) * 2 ∧
    ((Game.init dims g0 f0).runTicks inputs n).score =
      ((Game.init dims g0 f0).runTicks inputs n).offset / 2 ∧
    ((Game.init dims g0 f0).runTicks inputs n).score = (n : ℚ) := by
  refine ⟨runTicks_offset dims g0 f0 inputs n, rfl, ?_⟩
  show ((Game.init dims g0 f0).runTicks inputs n).offset / 2 = (n : ℚ)
  rw [runTicks_offset dims g0 f0 inputs n]
  ring

/-- C9: `collidesWith` is symmetric on every pair of bounding rectangles. -/
theorem collidesWith_symm (a b : Rectangle) : collidesWith a b = collidesWith b a := by
  simp only [collidesWith]
  rw [Bool.eq_iff_iff]
  simp only [Bool.and_eq_true, decide_eq_true_eq, gt_iff_lt]
  constructor
  · rintro ⟨⟨⟨h1, h2⟩, h3⟩, h4⟩; exact ⟨⟨⟨h2, h1⟩, h4⟩, h3⟩
  · rintro ⟨⟨⟨h1, h2⟩, h3⟩, h4⟩; exact ⟨⟨⟨h2, h1⟩, h4⟩, h3⟩

/-! ## Claim theorems: strict AABB overlap and edge touching (C2) -/

/-- C2: `collidesWith(A, B)` is true iff the four strict bounding-box
inequalities hold; a pair touching along a vertical edge
(`A.to.x = B.from.x`) never collides; and in the concrete scenario the craft
touching an obstacle's left edge gives `hasCollided() = false` while shifting
the craft one unit further right gives `true`. -/
theorem collidesWith_strict_iff :
    (∀ a b : Rectangle, collidesWith a b = true ↔
      (a.«from».x < b.«to».x ∧ a.«to».x > b.«from».x ∧
        a.«from».y < b.«to».y ∧ a.«to».y > b.«from».y)) ∧
    (∀ a b : Rectangle, a.«to».x = b.«from».x → collidesWith a b = false) ∧
    touchGame.hasCollided = false ∧ touchGameShifted.hasCollided = true := by
  refine ⟨?_, ?_, ?_, ?_⟩
  · intro a b
    simp [collidesWith, Bool.and_eq_true, decide_eq_true_eq, and_assoc]
  · intro a b h
    simp only [collidesWith, h]
    simp [lt_irrefl]
  · norm_num [Game.hasCollided, touchGame, touchGameShifted, Helicopter.boundingBox,
      Obstacle.boundingBox, collidesWith]
  · norm_num [Game.hasCollided, touchGame, touchGameShifted, Helicopter.boundingBox,
      Obstacle.boundingBox, collidesWith]

/-- Witness for C2: a concrete edge-touching pair is rejected by
`collidesWith`. -/
theorem collidesWith_strict_iff_witness :
    collidesWith ⟨⟨0, 0⟩, ⟨20, 20⟩⟩ ⟨⟨20, 0⟩, ⟨70, 100⟩⟩ = false :=
  collidesWith_strict_iff.2.1 ⟨⟨0, 0⟩, ⟨20, 20⟩⟩ ⟨⟨20, 0⟩, ⟨70, 100⟩⟩ rfl

/-! ## Claim theorems: non-advancing horizons are no-ops (C10) -/

/-- C10: calling `generateBorders(to)` with `to` at most the generator's
cursor returns the empty list and leaves the generator state (cursor, gap
size, direction sign) unchanged. -/
theorem generateBorders_noop (g : ObstacleGeneratorImpl) («to» : ℚ) (flips : ℕ → Bool)
    (h : «to» ≤ g.«from») : generateBorders g «to» flips = ([], g) := by
  unfold generateBorders
  have h1 : ⌈(«to» - g.«from») / 100⌉ ≤ 0 := by
    rw [Int.ceil_le]
    push_cast
    have h2 : «to» - g.«from» ≤ 0 := sub_nonpos.2 h
    linarith
  rw [Int.toNat_of_nonpos h1]
  rfl

/-- Witness for C10: on the scenario generator, the horizon 0 is a no-op. -/
theorem generateBorders_noop_witness :
    generateBorders gen800 0 constFlips = ([], gen800) :=
  generateBorders_noop gen800 0 constFlips
    (by norm_num [gen800, ObstacleGeneratorImpl.create])

/-! ## Structure of border generation -/

lemma slabNext_fields (g : ObstacleGeneratorImpl) (b : Bool) :
    (slabNext g b).«from» = g.«from» + 100 ∧ (slabNext g b).dimensions = g.dimensions ∧
    (slabNext g b).initialGapSize = g.initialGapSize ∧
    (slabNext g b).minGapSize = g.minGapSize ∧ (slabNext g b).gapSize = slabGap g b :=
  ⟨rfl, rfl, rfl, rfl, rfl⟩

lemma slabGap_range (g : ObstacleGeneratorImpl) (b : Bool)
    (hmi : g.minGapSize ≤ g.initialGapSize) :
    g.minGapSize ≤ slabGap g b ∧ slabGap g b ≤ g.initialGapSize :=
  ⟨le_min hmi (le_max_right _ _), min_le_left _ _⟩

lemma gapsList_length (n : ℕ) : ∀ (g : ObstacleGeneratorImpl) (flips : ℕ → Bool),
    (gapsList n g flips).length = n := by
  induction n with
  | zero => intro g flips; rfl
  | succ k ih => intro g flips; simp [gapsList, ih]

lemma generateBordersAux_fst (n : ℕ) : ∀ (g : ObstacleGeneratorImpl) (flips : ℕ → Bool),
    (generateBordersAux n g flips).1 =
      pairsFrom g.dimensions.height g.«from» (gapsList n g flips) := by
  induction n with
  | zero => intro g flips; rfl
  | succ k ih =>
    intro g flips
    simp only [generateBordersAux, gapsList, pairsFrom]
    rw [ih (slabNext g (flips 0)) (fun k => flips (k + 1))]
    simp [slabObstacles, slabNext]

lemma generateBordersAux_snd (n : ℕ) : ∀ (g : ObstacleGeneratorImpl) (flips : ℕ → Bool),
    (generateBordersAux n g flips).2.«from» = g.«from» + 100 * n ∧
    (generateBordersAux n g flips).2.dimensions = g.dimensions ∧
    (generateBordersAux n g flips).2.initialGapSize = g.initialGapSize ∧
    (generateBordersAux n g flips).2.minGapSize = g.minGapSize := by
  induction n with
  | zero =>
    intro g flips
    refine ⟨?_, rfl, rfl, rfl⟩
    show g.«from» = g.«from» + 100 * ((0 : ℕ) : ℚ)
    norm_num
  | succ k ih =>
    intro g flips
    obtain ⟨h1, h2, h3, h4⟩ := ih (slabNext g (flips 0)) (fun k => flips (k + 1))
    simp only [generateBordersAux]
    refine ⟨?_, h2.trans rfl, h3.trans rfl, h4.trans rfl⟩
    rw [h1, (slabNext_fields g (flips 0)).1]
    push_cast
    ring

lemma generateBordersAux_gap_range (n : ℕ) : ∀ (g : ObstacleGeneratorImpl) (flips : ℕ → Bool),
    g.minGapSize ≤ g.initialGapSize → g.minGapSize ≤ g.gapSize → g.gapSize ≤ g.initialGapSize →
    (∀ gp ∈ gapsList n g flips, g.minGapSize ≤ gp ∧ gp ≤ g.initialGapSize) ∧
    g.minGapSize ≤ (generateBordersAux n g flips).2.gapSize ∧
    (generateBordersAux n g flips).2.gapSize ≤ g.initialGapSize := by
  induction n with
  | zero =>
    intro g flips hmi h1 h2
    exact ⟨by simp [gapsList], h1, h2⟩
  | succ k ih =>
    intro g flips hmi h1 h2
    have hgp := slabGap_range g (flips 0) hmi
    obtain ⟨ha, hb, hc⟩ := ih (slabNext g (flips 0)) (fun k => flips (k + 1)) hmi hgp.1 hgp.2
    simp only [generateBordersAux]
    refine ⟨?_, hb, hc⟩
    intro gp hgpmem
    simp only [gapsList, List.mem_cons] at hgpmem
    rcases hgpmem with rfl | hmem
    · exact hgp
    · exact ha gp hmem

lemma pairsFrom_length (H : ℚ) : ∀ (gaps : List ℚ) (x : ℚ),
    (pairsFrom H x gaps).length = 2 * gaps.length := by
  intro gaps
  induction gaps with
  | nil => intro x; rfl
  | cons gp rest ih =>
    intro x
    simp only [pairsFrom, List.length_cons, ih]
    ring

lemma pairsFrom_mem (H : ℚ) : ∀ (gaps : List ℚ) (x : ℚ), ∀ o ∈ pairsFrom H x gaps,
    o.dimensions.width = 100 ∧ x ≤ o.position.x ∧
    o.position.x + 100 ≤ x + 100 * gaps.length := by
  intro gaps
  induction gaps with
  | nil => intro x o ho; simp [pairsFrom] at ho
  | cons gp rest ih =>
    intro x o ho
    have hlen : (0 : ℚ) ≤ 100 * rest.length := by positivity
    simp only [pairsFrom, List.mem_cons] at ho
    rcases ho with rfl | rfl | hmem
    · refine ⟨rfl, le_refl x, ?_⟩
      simp only [List.length_cons]
      push_cast
      linarith
    · refine ⟨rfl, le_refl x, ?_⟩
      simp only [List.length_cons]
      push_cast
      linarith
    · obtain ⟨hw, hlo, hhi⟩ := ih (x + 100) o hmem
      refine ⟨hw, by linarith, ?_⟩
      simp only [List.length_cons]
      push_cast at hhi ⊢
      linarith

lemma pairsFrom_pairwise (H : ℚ) : ∀ (gaps : List ℚ) (x : ℚ),
    List.Pairwise (fun a b : Obstacle => a.position.x ≤ b.position.x) (pairsFrom H x gaps) := by
  intro gaps
  induction gaps with
  | nil => intro x; simp [pairsFrom]
  | cons gp rest ih =>
    intro x
    have hrest : ∀ o ∈ pairsFrom H (x + 100) rest, x ≤ o.position.x := by
      intro o hmem
      have := (pairsFrom_mem H rest (x + 100) o hmem).2.1
      linarith
    simp only [pairsFrom, List.pairwise_cons]
    refine ⟨?_, ?_, ih (x + 100)⟩
    · intro o ho
      rcases List.mem_cons.1 ho with rfl | hmem
      · exact le_refl x
      · exact hrest o hmem
    · intro o ho
      exact hrest o ho

lemma generateBorders_count (g : ObstacleGeneratorImpl) («to» : ℚ) :
    «to» ≤ g.«from» + 100 * (⌈(«to» - g.«from») / 100⌉.toNat : ℚ) ∧
    (0 < ⌈(«to» - g.«from») / 100⌉.toNat →
      g.«from» + 100 * ((⌈(«to» - g.«from») / 100⌉.toNat : ℚ) - 1) < «to») := by
  constructor
  · have h1 : («to» - g.«from») / 100 ≤ (⌈(«to» - g.«from») / 100⌉ : ℚ) := Int.le_ceil _
    have h2 : (⌈(«to» - g.«from») / 100⌉ : ℚ) ≤ (⌈(«to» - g.«from») / 100⌉.toNat : ℚ) := by
      exact_mod_cast Int.self_le_toNat _
    have h3 : («to» - g.«from») / 100 ≤ (⌈(«to» - g.«from») / 100⌉.toNat : ℚ) := h1.trans h2
    rw [div_le_iff₀ (by norm_num : (0 : ℚ) < 100)] at h3
    linarith
  · intro hn
    have hpos : 0 < ⌈(«to» - g.«from») / 100⌉ := by
      by_contra hc
      push_neg at hc
      rw [Int.toNat_of_nonpos hc] at hn
      exact absurd hn (lt_irrefl 0)
    have heq : ((⌈(«to» - g.«from») / 100⌉.toNat : ℤ) : ℚ) = (⌈(«to» - g.«from») / 100⌉ : ℚ) := by
      exact_mod_cast congrArg (fun z : ℤ => (z : ℚ)) (Int.toNat_of_nonneg hpos.le)
    have h4 : (⌈(«to» - g.«from») / 100⌉ : ℚ) - 1 < («to» - g.«from») / 100 := by
      have := Int.ceil_lt_add_one ((«to» - g.«from») / 100)
      linarith
    have h5 : ((⌈(«to» - g.«from») / 100⌉.toNat : ℚ) - 1) < («to» - g.«from») / 100 := by
      rw [show ((⌈(«to» - g.«from») / 100⌉.toNat : ℚ)) = (⌈(«to» - g.«from») / 100⌉ : ℚ) by
        exact_mod_cast heq]
      exact h4
    rw [show (⌈(«to» - g.«from») / 100⌉.toNat : ℚ) - 1 <
          («to» - g.«from») / 100 ↔
        ((⌈(«to» - g.«from») / 100⌉.toNat : ℚ) - 1) * 100 < «to» - g.«from» from
      lt_div_iff₀ (by norm_num)] at h5
    linarith

/-! ## Claim theorems: the gap-size random walk is clamped (C3) -/

/-- C3: for every horizon and every sequence of random direction flips, the
gap size stays within `[minGapSize, initialGapSize]` after each
border-generation slab (the entries of `gapsList` are the per-slab gap
values), and so does the generator's final gap size, provided
`minGapSize ≤ initialGapSize` and the starting gap size is in range (as it is
for a fresh generator, which starts at `initialGapSize`). -/
theorem gapSize_clamped (g : ObstacleGeneratorImpl) («to» : ℚ) (flips : ℕ → Bool)
    (hmi : g.minGapSize ≤ g.initialGapSize) (h1 : g.minGapSize ≤ g.gapSize)
    (h2 : g.gapSize ≤ g.initialGapSize) :
    (∀ gp ∈ gapsList (⌈(«to» - g.«from») / 100⌉.toNat) g flips,
      g.minGapSize ≤ gp ∧ gp ≤ g.initialGapSize) ∧
    g.minGapSize ≤ (generateBorders g «to» flips).2.gapSize ∧
    (generateBorders g «to» flips).2.gapSize ≤ g.initialGapSize :=
  generateBordersAux_gap_range (⌈(«to» - g.«from») / 100⌉.toNat) g flips hmi h1 h2

/-- Witness for C3: the scenario generator keeps its gap size within
`[300, 540]` across `generateBorders(800)`. -/
theorem gapSize_clamped_witness :
    300 ≤ (generateBorders gen800 800 constFlips).2.gapSize ∧
    (generateBorders gen800 800 constFlips).2.gapSize ≤ 540 := by
  obtain ⟨-, hb, hc⟩ := gapSize_clamped gen800 800 constFlips
    (by norm_num [gen800, ObstacleGeneratorImpl.create])
    (by norm_num [gen800, ObstacleGeneratorImpl.create])
    (by norm_num [gen800, ObstacleGeneratorImpl.create])
  exact ⟨hb, hc⟩

/-! ## Structure of floating-obstacle generation -/

lemma generateObstacles_eq (d : Dimensions) («to» : ℚ) (rs : ℕ → ℚ) :
    generateObstacles d «to» rs =
      [⟨⟨«to» - d.width + d.width / 2, rs 0 * (d.height - 100)⟩, ⟨50, 100⟩⟩,
       ⟨⟨«to» - d.width + d.width / 2 + d.width / 2, rs 1 * (d.height - 100)⟩, ⟨50, 100⟩⟩] := by
  show genObstaclesAux d (0 + 1 + 1) rs («to» - d.width) = _
  simp [genObstaclesAux, obstaclesPerFrame]

/-! ## Claim theorems: floating-obstacle generation (C6) -/

/-- C6 counterexample: with viewport 800×600 and horizon `to = 800`, the
second generated obstacle has left edge exactly `to = 800`, so not every left
edge lies in the half-open window `[to - viewportWidth, to)`. -/
theorem generateObstacles_window_counterexample :
    ¬ (∀ o ∈ generateObstacles dims800 800 constRand,
        800 - dims800.width ≤ o.position.x ∧ o.position.x < 800) := by
  intro h
  have h2 := h
    ⟨⟨800 - dims800.width + dims800.width / 2 + dims800.width / 2,
        constRand 1 * (dims800.height - 100)⟩, ⟨50, 100⟩⟩
    (by rw [generateObstacles_eq]; simp)
  norm_num [dims800] at h2

/-- C6 (amended): for every horizon `to` and every random sequence,
`generateObstacles(to)` returns exactly 2 obstacles of dimensions 50×100,
evenly spaced half a viewport apart with left edges `to - width/2` and `to`,
hence within the half-open window `(to - viewportWidth, to]` — not
`[to - viewportWidth, to)` — and each with a y-coordinate in
`[0, viewportHeight - obstacleHeight]`. -/
theorem generateObstacles_spec (d : Dimensions) («to» : ℚ) (rs : ℕ → ℚ)
    (hw : 0 < d.width) (hh : 100 ≤ d.height) (hr : ∀ n, 0 ≤ rs n ∧ rs n < 1) :
    (generateObstacles d «to» rs).length = 2 ∧
    ((generateObstacles d «to» rs).map fun o => o.position.x) =
      [«to» - d.width / 2, «to»] ∧
    (∀ o ∈ generateObstacles d «to» rs,
      o.dimensions = ⟨50, 100⟩ ∧
      «to» - d.width < o.position.x ∧ o.position.x ≤ «to» ∧
      0 ≤ o.position.y ∧ o.position.y ≤ d.height - 100) := by
  have hy : ∀ n, 0 ≤ rs n * (d.height - 100) ∧ rs n * (d.height - 100) ≤ d.height - 100 := by
    intro n
    constructor
    · exact mul_nonneg (hr n).1 (by linarith)
    · have := mul_le_mul_of_nonneg_right (le_of_lt (hr n).2) (by linarith : (0:ℚ) ≤ d.height - 100)
      linarith
  rw [generateObstacles_eq]
  refine ⟨rfl, ?_, ?_⟩
  · simp only [List.map_cons, List.map_nil]
    have e1 : «to» - d.width + d.width / 2 = «to» - d.width / 2 := by ring
    have e2 : «to» - d.width / 2 + d.width / 2 = «to» := by ring
    rw [e1, e2]
  · intro o ho
    simp only [List.mem_cons, List.not_mem_nil, or_false] at ho
    rcases ho with rfl | rfl
    · exact ⟨rfl, by simp; linarith, by simp; linarith, (hy 0).1, (hy 0).2⟩
    · exact ⟨rfl, by simp; linarith, by simp; linarith, (hy 1).1, (hy 1).2⟩

/-- Witness for C6 (amended): the scenario call yields two obstacles at left
edges 400 and 800. -/
theorem generateObstacles_spec_witness :
    (generateObstacles dims800 800 constRand).length = 2 ∧
    ((generateObstacles dims800 800 constRand).map fun o => o.position.x) = [400, 800] := by
  obtain ⟨h1, h2, -⟩ := generateObstacles_spec dims800 800 constRand
    (by norm_num [dims800]) (by norm_num [dims800]) (fun n => by norm_num [constRand])
  refine ⟨h1, ?_⟩
  rw [h2]
  norm_num [dims800]

lemma exists_eight_of_length {α : Type} (l : List α) (h : l.length = 8) :
    ∃ a b c d e f g h', l = [a, b, c, d, e, f, g, h'] := by
  rcases l with _ | ⟨a, _ | ⟨b, _ | ⟨c, _ | ⟨d, _ | ⟨e, _ | ⟨f, _ | ⟨g, _ | ⟨h8, t⟩⟩⟩⟩⟩⟩⟩⟩ <;>
    simp only [List.length_cons, List.length_nil] at h
  all_goals try omega
  have ht : t = [] := List.length_eq_zero.mp (by omega)
  subst ht
  exact ⟨a, b, c, d, e, f, g, h8, rfl⟩

/-! ## Claim theorems: the border-generation scenario (C5) -/

/-- C5: with viewport 800×600, initial gap 540 and min gap 300, for every
random sequence `generateBorders(800)` on a fresh generator emits one
top/bottom pair per slab (`pairsFrom`), with 8 recorded gap values each in
`[300, 540]`: exactly 16 obstacles whose left edges are
`0,0,100,100,...,700,700`, each pair holding a top obstacle at `(x, 0)` and a
bottom obstacle at `(x, 600 - h)` of equal dimensions `100 × h` with
`h = (600 - gap)/2`. -/
theorem generateBorders_scenario (flips : ℕ → Bool) :
    ∃ gaps : List ℚ,
      gaps.length = 8 ∧
      (∀ gp ∈ gaps, 300 ≤ gp ∧ gp ≤ 540) ∧
      (generateBorders gen800 800 flips).1 = pairsFrom 600 0 gaps ∧
      (generateBorders gen800 800 flips).1.length = 16 ∧
      ((generateBorders gen800 800 flips).1.map fun o => o.position.x) =
        [0, 0, 100, 100, 200, 200, 300, 300, 400, 400, 500, 500, 600, 600, 700, 700] := by
  have hn : ⌈((800 : ℚ) - gen800.«from») / 100⌉.toNat = 8 := by
    norm_num [gen800, ObstacleGeneratorImpl.create]
    rfl
  refine ⟨gapsList 8 gen800 flips, gapsList_length 8 gen800 flips, ?_, ?_, ?_, ?_⟩
  · intro gp hgp
    have h2 := (generateBordersAux_gap_range 8 gen800 flips
      (by norm_num [gen800, ObstacleGeneratorImpl.create])
      (by norm_num [gen800, ObstacleGeneratorImpl.create])
      (by norm_num [gen800, ObstacleGeneratorImpl.create])).1 gp hgp
    constructor
    · simpa [gen800, ObstacleGeneratorImpl.create] using h2.1
    · simpa [gen800, ObstacleGeneratorImpl.create] using h2.2
  · show (generateBordersAux (⌈((800 : ℚ) - gen800.«from») / 100⌉.toNat) gen800 flips).1 = _
    rw [hn, generateBordersAux_fst 8 gen800 flips]
    norm_num [gen800, ObstacleGeneratorImpl.create, dims800]
  · show (generateBordersAux (⌈((800 : ℚ) - gen800.«from») / 100⌉.toNat) gen800 flips).1.length = 16
    rw [hn, generateBordersAux_fst 8 gen800 flips, pairsFrom_length,
      gapsList_length 8 gen800 flips]
  · show ((generateBordersAux (⌈((800 : ℚ) - gen800.«from») / 100⌉.toNat)
        gen800 flips).1.map fun o => o.position.x) = _
    rw [hn, generateBordersAux_fst 8 gen800 flips]
    obtain ⟨a, b, c, d, e, f, g', h', hl⟩ :=
      exists_eight_of_length (gapsList 8 gen800 flips) (gapsList_length 8 gen800 flips)
    rw [hl]
    simp only [pairsFrom, List.map_cons, List.map_nil]
    norm_num [gen800, ObstacleGeneratorImpl.create, dims800]

/-! ## Claim theorems: pruning safety (C7) -/

/-- C7: `removeOutOfFrameObstacles` (the pruning step `tick()` applies to the
obstacle collection) removes exactly a contiguous prefix, and every removed
obstacle's bounding-box right edge was strictly behind the current offset. -/
theorem removeOutOfFrameObstacles_prefix_safe (s : Game) :
    ∃ removed : List Obstacle,
      s.obstacles = removed ++ (s.removeOutOfFrameObstacles).obstacles ∧
      ∀ o ∈ removed, o.boundingBox.«to».x < s.offset := by
  refine ⟨s.obstacles.takeWhile (fun o => decide (o.boundingBox.«to».x < s.offset)), ?_, ?_⟩
  · show s.obstacles = _ ++ s.obstacles.dropWhile (fun o => decide (o.boundingBox.«to».x < s.offset))
    exact (List.takeWhile_append_dropWhile _ _).symm
  · intro o ho
    have h2 := List.mem_takeWhile_imp ho
    simp only [decide_eq_true_eq] at h2
    exact h2

/-! ## Claim theorems: craft trajectory under constant descend input (C8) -/

lemma tick_advance_false (s : Game) (i : TickInput) (h : i.goUp = false) :
    (s.tick i).helicopter.trail = s.helicopter.trail ++ [s.helicopter.position] ∧
    (s.tick i).helicopter.position =
      ⟨s.helicopter.position.x + 2, s.helicopter.position.y + 1⟩ := by
  rw [tick_helicopter s i]
  constructor
  · rfl
  · simp [Helicopter.advance, h]

lemma runTicks_descend (dims : Dimensions) (g0 : ObstacleGeneratorImpl) (f0 : ℕ → Bool)
    (inputs : ℕ → TickInput) (h : ∀ k, (inputs k).goUp = false) (n : ℕ) :
    ((Game.init dims g0 f0).runTicks inputs n).helicopter.position =
      ⟨dims.width / 2 + 2 * n, dims.height / 2 + n⟩ ∧
    ((Game.init dims g0 f0).runTicks inputs n).helicopter.trail.length = n := by
  induction n with
  | zero =>
    constructor
    · show (⟨dims.width / 2, dims.height / 2⟩ : Point) = _
      rw [Point.mk.injEq]
      constructor <;> (push_cast; ring)
    · rfl
  | succ k ih =>
    obtain ⟨hp, ht⟩ := ih
    have hadv := tick_advance_false ((Game.init dims g0 f0).runTicks inputs k) (inputs k) (h k)
    constructor
    · show (((Game.init dims g0 f0).runTicks inputs k).tick (inputs k)).helicopter.position = _
      rw [hadv.2, hp, Point.mk.injEq]
      constructor <;> (push_cast; ring)
    · show (((Game.init dims g0 f0).runTicks inputs k).tick (inputs k)).helicopter.trail.length = _
      rw [hadv.1]
      simp [ht]

/-- C8: when the input signal is never true, every tick appends the pre-update
position to the craft's trail and moves the craft by `(+2, +1)`; on a fresh
game, after 300 ticks the craft sits at `(width/2 + 600, height/2 + 300)`,
i.e. x increased by exactly 600 and y by exactly 300 from the start position
`(width/2, height/2)`, with 300 recorded trail entries. -/
theorem craft_descend_trajectory (dims : Dimensions) (g0 : ObstacleGeneratorImpl)
    (f0 : ℕ → Bool) (inputs : ℕ → TickInput) (h : ∀ k, (inputs k).goUp = false) :
    (∀ (s : Game) (i : TickInput), i.goUp = false →
      (s.tick i).helicopter.trail = s.helicopter.trail ++ [s.helicopter.position] ∧
      (s.tick i).helicopter.position =
        ⟨s.helicopter.position.x + 2, s.helicopter.position.y + 1⟩) ∧
    ((Game.init dims g0 f0).runTicks inputs 300).helicopter.position =
      ⟨dims.width / 2 + 600, dims.height / 2 + 300⟩ ∧
    ((Game.init dims g0 f0).runTicks inputs 300).helicopter.trail.length = 300 := by
  refine ⟨fun s i hi => tick_advance_false s i hi, ?_,
    (runTicks_descend dims g0 f0 inputs h 300).2⟩
  rw [(runTicks_descend dims g0 f0 inputs h 300).1, Point.mk.injEq]
  norm_num

/-- Witness for C8: on the scenario game with the always-descend input, the
craft ends at `(1000, 600)` after 300 ticks. -/
theorem craft_descend_trajectory_witness :
    ((Game.init dims800 gen800 constFlips).runTicks (fun _ => defaultInput) 300).helicopter.position =
      ⟨1000, 600⟩ := by
  have h := craft_descend_trajectory dims800 gen800 constFlips (fun _ => defaultInput)
    (fun k => rfl)
  rw [h.2.1, Point.mk.injEq]
  norm_num [dims800]

/-! ## Sortedness of the border subcollection (C1) -/

lemma tick_obstacles (s : Game) (i : TickInput) :
    (s.tick i).obstacles = (s.tickGenerate i).obstacles := rfl

lemma tick_generator (s : Game) (i : TickInput) :
    (s.tick i).obstacleGenerator = (s.tickGenerate i).obstacleGenerator := rfl

lemma tickGenerate_pos (s : Game) (i : TickInput)
    (h : jsMod s.offset s.dimensions.width = 0) :
    (s.tickGenerate i).obstacles =
      ((s.obstacles ++
          (generateBorders s.obstacleGenerator (s.offset + 2 * s.dimensions.width) i.flips).1) ++
        generateObstacles s.dimensions (s.offset + 2 * s.dimensions.width) i.rs).dropWhile
        (fun o => decide (o.boundingBox.«to».x < s.offset)) ∧
    (s.tickGenerate i).obstacleGenerator =
      (generateBorders s.obstacleGenerator (s.offset + 2 * s.dimensions.width) i.flips).2 := by
  unfold Game.tickGenerate
  rw [if_pos h]
  exact ⟨rfl, rfl⟩

lemma tickGenerate_neg (s : Game) (i : TickInput)
    (h : ¬ jsMod s.offset s.dimensions.width = 0) : s.tickGenerate i = s := by
  unfold Game.tickGenerate
  rw [if_neg h]

lemma bordersOf_append (l1 l2 : List Obstacle) :
    bordersOf (l1 ++ l2) = bordersOf l1 ++ bordersOf l2 := by
  simp [bordersOf]

lemma bordersOf_pairsFrom (H x : ℚ) (gaps : List ℚ) :
    bordersOf (pairsFrom H x gaps) = pairsFrom H x gaps := by
  apply List.filter_eq_self.mpr
  intro o ho
  exact decide_eq_true (pairsFrom_mem H gaps x o ho).1

lemma bordersOf_generateObstacles (d : Dimensions) («to» : ℚ) (rs : ℕ → ℚ) :
    bordersOf (generateObstacles d «to» rs) = [] := by
  rw [generateObstacles_eq]
  norm_num [bordersOf]

lemma pairsFrom_mem_exists (H : ℚ) : ∀ (gaps : List ℚ) (x : ℚ) (k : ℕ), k < gaps.length →
    ∃ o ∈ pairsFrom H x gaps, o.position.x = x + 100 * k := by
  intro gaps
  induction gaps with
  | nil => intro x k hk; simp at hk
  | cons gp rest ih =>
    intro x k hk
    match k with
    | 0 =>
      refine ⟨⟨⟨x, 0⟩, ⟨100, (H - gp) / 2⟩⟩, by simp [pairsFrom], ?_⟩
      push_cast
      ring
    | j + 1 =>
      have hj : j < rest.length := by
        simp only [List.length_cons] at hk
        omega
      obtain ⟨o, ho, hx⟩ := ih (x + 100) j hj
      refine ⟨o, by simp [pairsFrom, ho], ?_⟩
      rw [hx]
      push_cast
      ring

lemma generateBorders_fst (g : ObstacleGeneratorImpl) («to» : ℚ) (flips : ℕ → Bool) :
    (generateBorders g «to» flips).1 =
      pairsFrom g.dimensions.height g.«from»
        (gapsList (⌈(«to» - g.«from») / 100⌉.toNat) g flips) :=
  generateBordersAux_fst _ g flips

lemma generateBorders_snd_from (g : ObstacleGeneratorImpl) («to» : ℚ) (flips : ℕ → Bool) :
    (generateBorders g «to» flips).2.«from» =
      g.«from» + 100 * ((⌈(«to» - g.«from») / 100⌉.toNat : ℕ) : ℚ) :=
  (generateBordersAux_snd _ g flips).1

lemma bordersOf_sublist {l1 l2 : List Obstacle} (h : l1.Sublist l2) :
    (bordersOf l1).Sublist (bordersOf l2) :=
  List.Sublist.filter _ h

lemma mem_bordersOf (o : Obstacle) (l : List Obstacle) :
    o ∈ bordersOf l ↔ o ∈ l ∧ o.dimensions.width = 100 := by
  simp [bordersOf]

lemma borders_inv (dims : Dimensions) (g0 : ObstacleGeneratorImpl) (f0 : ℕ → Bool)
    (inputs : ℕ → TickInput) : ∀ n : ℕ,
    List.Pairwise (fun a b : Obstacle => a.position.x ≤ b.position.x)
      (bordersOf (((Game.init dims g0 f0).runTicks inputs n).obstacles)) ∧
    (∀ o ∈ ((Game.init dims g0 f0).runTicks inputs n).obstacles,
      o.dimensions.width = 100 →
      o.position.x + 100 ≤ ((Game.init dims g0 f0).runTicks inputs n).obstacleGenerator.«from») := by
  intro n
  induction n with
  | zero =>
    constructor
    · show List.Pairwise _ (bordersOf ((generateBorders g0 dims.width f0).1))
      rw [generateBorders_fst, bordersOf_pairsFrom]
      exact pairsFrom_pairwise _ _ _
    · intro o ho hw
      have ho2 : o ∈ pairsFrom g0.dimensions.height g0.«from»
          (gapsList (⌈(dims.width - g0.«from») / 100⌉.toNat) g0 f0) := by
        rw [← generateBorders_fst]
        exact ho
      have hm := (pairsFrom_mem _ _ _ o ho2).2.2
      show o.position.x + 100 ≤ (generateBorders g0 dims.width f0).2.«from»
      rw [generateBorders_snd_from]
      rw [gapsList_length] at hm
      exact hm
  | succ k ih =>
    by_cases hc : jsMod ((Game.init dims g0 f0).runTicks inputs k).offset
        ((Game.init dims g0 f0).runTicks inputs k).dimensions.width = 0
    · obtain ⟨hobs, hgen⟩ :=
        tickGenerate_pos ((Game.init dims g0 f0).runTicks inputs k) (inputs k) hc
      have hsteps : ((Game.init dims g0 f0).runTicks inputs (k + 1)).obstacles =
          (((Game.init dims g0 f0).runTicks inputs k).tickGenerate (inputs k)).obstacles := rfl
      have hstepg : ((Game.init dims g0 f0).runTicks inputs (k + 1)).obstacleGenerator =
          (((Game.init dims g0 f0).runTicks inputs k).tickGenerate (inputs k)).obstacleGenerator :=
        rfl
      constructor
      · rw [hsteps, hobs]
        refine List.Pairwise.sublist (bordersOf_sublist (List.dropWhile_sublist _)) ?_
        rw [bordersOf_append, bordersOf_append, bordersOf_generateObstacles, List.append_nil,
          generateBorders_fst, bordersOf_pairsFrom]
        apply List.pairwise_append.mpr
        refine ⟨ih.1, pairsFrom_pairwise _ _ _, ?_⟩
        intro a ha b hb
        obtain ⟨hamem, haw⟩ := (mem_bordersOf a _).1 ha
        have h1 := ih.2 a hamem haw
        have h2 := (pairsFrom_mem _ _ _ b hb).2.1
        linarith
      · intro o ho hw
        rw [hsteps, hobs] at ho
        have ho2 := (List.dropWhile_sublist _).subset ho
        rw [hstepg, hgen, generateBorders_snd_from]
        rcases List.mem_append.1 ho2 with h12 | hfs
        · rcases List.mem_append.1 h12 with hA | hbs
          · have h3 := ih.2 o hA hw
            have hN : (0 : ℚ) ≤ 100 *
                ((⌈((((Game.init dims g0 f0).runTicks inputs k).offset +
                    2 * ((Game.init dims g0 f0).runTicks inputs k).dimensions.width) -
                    ((Game.init dims g0 f0).runTicks inputs k).obstacleGenerator.«from») /
                    100⌉.toNat : ℕ) : ℚ) := by positivity
            linarith
          · rw [generateBorders_fst] at hbs
            have h4 := (pairsFrom_mem _ _ _ o hbs).2.2
            rw [gapsList_length] at h4
            exact h4
        · rw [generateObstacles_eq] at hfs
          simp only [List.mem_cons, List.not_mem_nil, or_false] at hfs
          rcases hfs with rfl | rfl <;> norm_num at hw
    · have hng := tickGenerate_neg ((Game.init dims g0 f0).runTicks inputs k) (inputs k) hc
      have hsteps : ((Game.init dims g0 f0).runTicks inputs (k + 1)).obstacles =
          (((Game.init dims g0 f0).runTicks inputs k).tickGenerate (inputs k)).obstacles := rfl
      have hstepg : ((Game.init dims g0 f0).runTicks inputs (k + 1)).obstacleGenerator =
          (((Game.init dims g0 f0).runTicks inputs k).tickGenerate (inputs k)).obstacleGenerator :=
        rfl
      constructor
      · rw [hsteps, hng]
        exact ih.1
      · intro o ho hw
        rw [hsteps, hng] at ho
        rw [hstepg, hng]
        exact ih.2 o ho hw

/-- C1 counterexample: on the fresh scenario game, the collection after the
first `tick()` is NOT sorted by left-edge x: the tick appends borders with
left edges up to 1500 and then floating obstacles starting at 1200. -/
theorem obstacles_not_sorted_after_first_tick :
    ¬ List.Pairwise (fun a b : Obstacle => a.position.x ≤ b.position.x)
      ((game800.tick defaultInput).obstacles) := by
  intro hpw
  have hoffset : game800.offset = 0 := rfl
  have hdims : game800.dimensions = dims800 := rfl
  have hcount1 : ⌈(dims800.width - gen800.«from») / 100⌉.toNat = 8 := by
    norm_num [dims800, gen800, ObstacleGeneratorImpl.create]
    rfl
  have hfrom : game800.obstacleGenerator.«from» = 800 := by
    show (generateBorders gen800 dims800.width constFlips).2.«from» = 800
    rw [generateBorders_snd_from, hcount1]
    norm_num [gen800, ObstacleGeneratorImpl.create]
  have hcond : jsMod game800.offset game800.dimensions.width = 0 := by
    rw [hoffset, hdims]
    norm_num [jsMod, jsTrunc, dims800]
  obtain ⟨hobs, -⟩ := tickGenerate_pos game800 defaultInput hcond
  rw [tick_obstacles, hobs] at hpw
  -- the pruning pass at offset 0 removes nothing: the head survives
  have hinit : game800.obstacles = pairsFrom gen800.dimensions.height gen800.«from»
      (gapsList 8 gen800 constFlips) := by
    show (generateBorders gen800 dims800.width constFlips).1 = _
    rw [generateBorders_fst, hcount1]
  obtain ⟨g1, rest, hgr⟩ : ∃ g1 rest, gapsList 8 gen800 constFlips = g1 :: rest := by
    have hne : gapsList 8 gen800 constFlips ≠ [] := by
      intro hnil
      have hlen := gapsList_length 8 gen800 constFlips
      rw [hnil] at hlen
      simp at hlen
    exact List.exists_cons_of_ne_nil hne
  rw [hinit, hgr] at hpw
  simp only [pairsFrom] at hpw
  rw [List.cons_append, List.cons_append] at hpw
  rw [List.dropWhile_cons_of_neg (by
    simp only [decide_eq_true_eq, Obstacle.boundingBox]
    show ¬(gen800.«from» + 100 < game800.offset)
    rw [hoffset]
    norm_num [gen800, ObstacleGeneratorImpl.create])] at hpw
  -- regroup the surviving list as (init ++ borders) ++ floats
  rw [← List.cons_append, ← List.cons_append, ← pairsFrom, ← hgr, ← hinit] at hpw
  have hcross := (List.pairwise_append.1 hpw).2.2
  -- the last appended border slab sits at x = 1500
  have hcount2 : ⌈((game800.offset + 2 * game800.dimensions.width) -
      game800.obstacleGenerator.«from») / 100⌉.toNat = 8 := by
    rw [hoffset, hdims, hfrom]
    norm_num [dims800]
    rfl
  obtain ⟨a, ha, hax⟩ := pairsFrom_mem_exists game800.obstacleGenerator.dimensions.height
    (gapsList 8 game800.obstacleGenerator defaultInput.flips)
    game800.obstacleGenerator.«from» 7
    (by rw [gapsList_length]; omega)
  have hamem : a ∈ (generateBorders game800.obstacleGenerator
      (game800.offset + 2 * game800.dimensions.width) defaultInput.flips).1 := by
    rw [generateBorders_fst, hcount2]
    exact ha
  -- the first floating obstacle sits at x = 1200
  have hb := hcross a (List.mem_append_right _ hamem)
    ⟨⟨(game800.offset + 2 * game800.dimensions.width) - game800.dimensions.width +
        game800.dimensions.width / 2,
      defaultInput.rs 0 * (game800.dimensions.height - 100)⟩, ⟨50, 100⟩⟩
    (by rw [generateObstacles_eq]; simp)
  rw [hax, hfrom] at hb
  rw [hoffset, hdims] at hb
  norm_num [dims800] at hb

/-- C1 (amended): after every `tick()` on a fresh game, for every input and
random sequence, the subsequence of border obstacles (the slab-width-100
obstacles emitted by border generation) is sorted by left-edge x ascending;
the full collection is not always sorted, because each generation batch
appends its floating obstacles after borders with larger left edges. -/
theorem borders_sorted_after_ticks (dims : Dimensions) (g0 : ObstacleGeneratorImpl)
    (f0 : ℕ → Bool) (inputs : ℕ → TickInput) (n : ℕ) :
    List.Pairwise (fun a b : Obstacle => a.position.x ≤ b.position.x)
      (bordersOf (((Game.init dims g0 f0).runTicks inputs n).obstacles)) :=
  (borders_inv dims g0 f0 inputs n).1
